import Mathlib

/-!
Shallow embedding of the upload orchestration engine of this repository.

The repository contains two near-identical implementations of an
UploadManager class (source files part_002 and part_003).  Both choose
between a simple single-put upload and a chunked multipart upload based on
file size, and both keep a registry of per-(bucket,key) UploadState records
supporting pause, resume and abort.  They differ in the chunked transfer
loop: part_002 scans for gaps in the completed-part set and retries failed
part uploads with backoff, while part_003 advances a monotonic cursor
(nextPartNumber) with no retry and has no aborted flag on its state.

The embedding below translates both.  Network and file effects are
abstracted by a Backend oracle; the cooperative concurrency of the source
(pause/abort flags set by other tasks, observed at batch boundaries) is
modelled by a schedule of flag updates applied at the start of every
iteration of the transfer loop.  Within a batch the source runs the part
uploads as concurrently settled promises; the model folds them in part
order, one legal interleaving, and fails the batch if any part failed,
exactly as Promise.all does.
-/

/-- Constants from the source: 5 MiB threshold, 5 MiB part size, 3-way
part concurrency. -/
def MULTIPART_THRESHOLD : Nat := 5 * 1024 * 1024

def PART_SIZE : Nat := 5 * 1024 * 1024

def MAX_CONCURRENT_UPLOADS : Nat := 3

/-- totalParts = Math.ceil(fileSize / PART_SIZE). -/
def totalPartsOf (fileSize : Nat) : Nat := (fileSize + PART_SIZE - 1) / PART_SIZE

/-- One entry of uploadedParts: a part number with the ETag the backend
returned for it. -/
structure PartEntry where
  PartNumber : Nat
  ETag : String
deriving DecidableEq, Repr

/-- UploadState from the source.  part_003's variant has no isAborted
field; its functions below simply never read or write it. -/
structure UploadState where
  uploadId : String
  bucket : String
  key : String
  filePath : String
  fileSize : Nat
  uploadedParts : List PartEntry
  nextPartNumber : Nat
  isPaused : Bool
  isAborted : Bool
deriving DecidableEq, Repr

/-- Status values of a ProgressInfo. -/
inductive Status where
  | uploading
  | paused
  | completed
  | failed
deriving DecidableEq, Repr

/-- ProgressInfo from the source; percentage is exact rational arithmetic
in place of the source's floating point. -/
structure ProgressInfo where
  fileName : String
  uploadedBytes : Nat
  totalBytes : Nat
  percentage : Rat
  currentPart : Option Nat
  totalParts : Option Nat
  status : Status
deriving DecidableEq, Repr

/-- The backend calls the orchestrator can issue (S3 commands). -/
inductive Call where
  | putCall
  | initiateCall
  | listPartsCall
  | uploadPartCall (partNumber : Nat)
  | completeCall (parts : List PartEntry)
  | abortCall (bucket key uploadId : String)
deriving DecidableEq, Repr

/-- Oracle for the backend: results of each kind of call.  partETag gives
the result of uploading a given part number at a given retry count (none
means the attempt fails, i.e. send throws or the response has no ETag). -/
structure Backend where
  putOk : Bool
  initiateResult : Option String
  listParts : List PartEntry
  partETag : Nat → Nat → Option String
  completeOk : Bool
  abortOk : Bool

/-- A flag update applied at a batch boundary: a concurrent pauseUpload or
abortUpload call setting the corresponding flag on the shared state. -/
structure FlagUpdate where
  pause : Bool
  abort : Bool
deriving DecidableEq, Repr

/-- Apply the (optional) flag update of the current batch boundary.  Flags
are only ever set, never cleared, matching pauseUpload and abortUpload. -/
def applyFlags (st : UploadState) : Option FlagUpdate → UploadState
  | none => st
  | some u =>
      { st with isPaused := st.isPaused || u.pause,
                isAborted := st.isAborted || u.abort }

/-- The registry this.uploadStates: a map from stateKey strings to
UploadState records. -/
abbrev Registry := List (String × UploadState)

/-- stateKey as in the source: bucket slash key. -/
def stateKey (bucket key : String) : String := bucket ++ "/" ++ key

def lookupReg (reg : Registry) (k : String) : Option UploadState :=
  (reg.find? (fun p => p.1 == k)).map (fun p => p.2)

def eraseReg (reg : Registry) (k : String) : Registry :=
  reg.filter (fun p => !(p.1 == k))

def insertReg (reg : Registry) (k : String) (st : UploadState) : Registry :=
  (k, st) :: eraseReg reg k

/-- Stable insertion of a part entry into a list sorted by PartNumber. -/
def insertPart (e : PartEntry) : List PartEntry → List PartEntry
  | [] => [e]
  | x :: xs =>
      if x.PartNumber ≤ e.PartNumber then x :: insertPart e xs
      else e :: x :: xs

/-- The source pushes the new entry and then sorts uploadedParts by
PartNumber with a stable comparison sort; modelled as insertion sort. -/
def sortParts : List PartEntry → List PartEntry
  | [] => []
  | x :: xs => insertPart x (sortParts xs)

/-- The uploading ProgressInfo emitted after a successful part upload,
where n is uploadedParts.length after recording the part. -/
def partProgressEvent (fp : String) (fileSize n : Nat) : ProgressInfo :=
  { fileName := fp
    uploadedBytes := min (n * PART_SIZE) fileSize
    totalBytes := fileSize
    percentage := min (((n * PART_SIZE : Nat) : Rat) / (fileSize : Rat) * 100) 100
    currentPart := some n
    totalParts := some (totalPartsOf fileSize)
    status := .uploading }

/-- The failed ProgressInfo both implementations emit from their catch
blocks: zero bytes, zero percent, no part counts. -/
def failedEvent (fp : String) (fileSize : Nat) : ProgressInfo :=
  { fileName := fp, uploadedBytes := 0, totalBytes := fileSize,
    percentage := 0, currentPart := none, totalParts := none,
    status := .failed }

/-- The initial ProgressInfo emitted by simpleUpload. -/
def startEvent (fp : String) (fileSize : Nat) : ProgressInfo :=
  { fileName := fp, uploadedBytes := 0, totalBytes := fileSize,
    percentage := 0, currentPart := none, totalParts := none,
    status := .uploading }

/-- The completed ProgressInfo emitted at the end of a multipart upload. -/
def completedEvent (fp : String) (fileSize : Nat) : ProgressInfo :=
  { fileName := fp, uploadedBytes := fileSize, totalBytes := fileSize,
    percentage := 100, currentPart := some (totalPartsOf fileSize),
    totalParts := some (totalPartsOf fileSize), status := .completed }

/-- The paused ProgressInfo emitted when the loop observes isPaused. -/
def pausedEvent (fp : String) (fileSize len totalParts : Nat) : ProgressInfo :=
  { fileName := fp, uploadedBytes := len * PART_SIZE, totalBytes := fileSize,
    percentage := ((len : Rat) / (totalParts : Rat)) * 100,
    currentPart := some len, totalParts := some totalParts,
    status := .paused }

/-- Result of one uploadPart task: final state, emitted progress events,
issued backend calls, backoff delays slept (milliseconds), and whether the
promise resolved (true) or rejected (false). -/
structure PartResult where
  state : UploadState
  events : List ProgressInfo
  calls : List Call
  delays : List Nat
  ok : Bool
deriving Repr

/-- Result of one concurrent batch (Promise.all over its uploadPart
promises). -/
structure BatchResult where
  state : UploadState
  events : List ProgressInfo
  calls : List Call
  ok : Bool
deriving Repr

/-- How the transfer loop ended: normal break, a thrown part failure, or
exhausted fuel (never reached with the fuel the driver supplies). -/
inductive LoopExit where
  | finished
  | errored (msg : String)
  | fuelOut
deriving DecidableEq, Repr

structure LoopResult where
  state : UploadState
  events : List ProgressInfo
  calls : List Call
  exit : LoopExit
deriving Repr

/-- Terminal outcome of a whole multipartUpload or uploadFile call. -/
inductive Outcome where
  | done
  | pausedOut
  | abortedOut
  | failed (msg : String)
  | fuelOut
deriving DecidableEq, Repr

/-- Result of a simpleUpload call: events, calls, outcome. -/
structure SimpleResult where
  events : List ProgressInfo
  calls : List Call
  outcome : Outcome
deriving Repr

/-- Result of a whole orchestrator entry point: final registry, events,
calls, outcome. -/
structure RunResult where
  registry : Registry
  events : List ProgressInfo
  calls : List Call
  outcome : Outcome
deriving Repr

/-- Project the part numbers of the issued uploadPart calls of a trace. -/
def issuedParts (calls : List Call) : List Nat :=
  calls.filterMap (fun c => match c with
    | .uploadPartCall p => some p
    | _ => none)

namespace Upload002

/-- uploadPart of part_002, structurally recursive on the retries still
allowed (the source counts retryCount upward with bound 3; retriesLeft is
3 minus retryCount).  Each attempt re-checks isAborted on entry, issues
the UploadPartCommand, and on failure sleeps 1000 * (retryCount + 1)
milliseconds before retrying, matching the source. -/
def uploadPartGo (be : Backend) (partNumber fileSize : Nat) :
    Nat → Nat → UploadState → PartResult
  | retriesLeft, retryCount, st =>
    if st.isAborted then ⟨st, [], [], [], true⟩
    else
      match be.partETag partNumber retryCount with
      | some etag =>
          let parts' := sortParts (st.uploadedParts ++ [⟨partNumber, etag⟩])
          ⟨{ st with uploadedParts := parts' },
           [partProgressEvent st.filePath fileSize parts'.length],
           [.uploadPartCall partNumber], [], true⟩
      | none =>
          match retriesLeft with
          | rl + 1 =>
              if st.isAborted then ⟨st, [], [.uploadPartCall partNumber], [], false⟩
              else
                let r := uploadPartGo be partNumber fileSize rl (retryCount + 1) st
                ⟨r.state, r.events, .uploadPartCall partNumber :: r.calls,
                 1000 * (retryCount + 1) :: r.delays, r.ok⟩
          | 0 => ⟨st, [], [.uploadPartCall partNumber], [], false⟩

/-- uploadPart entry point: retryCount starts at 0, so 3 retries remain. -/
def uploadPart (be : Backend) (st : UploadState) (partNumber fileSize : Nat)
    (retryCount : Nat) : PartResult :=
  uploadPartGo be partNumber fileSize (3 - retryCount) retryCount st

/-- The gap scan of part_002: the first part index i in [1, totalParts]
that is not among the uploaded part numbers and satisfies
i >= nextPartNumber. -/
def findNextMissing (uploaded : List Nat) (next totalParts : Nat) : Option Nat :=
  (List.range' 1 totalParts).find?
    (fun i => !(uploaded.contains i) && decide (next ≤ i))

/-- Batch collection of part_002: starting from the first missing part,
scan upward collecting further missing parts until the batch holds
MAX_CONCURRENT_UPLOADS parts or the scan passes totalParts. -/
def collectBatch (uploaded : List Nat) (first totalParts : Nat) : List Nat :=
  first ::
    (((List.range' (first + 1) (totalParts - first)).filter
        (fun i => !(uploaded.contains i))).take (MAX_CONCURRENT_UPLOADS - 1))

/-- Promise.all over the batch: every part task of the batch runs and
settles (the source creates all promises before awaiting), the batch
fails if any task rejected.  The per-part flag check of the source's for
loop is kept. -/
def batchRun (be : Backend) (fileSize : Nat) :
    List Nat → UploadState → BatchResult
  | [], st => ⟨st, [], [], true⟩
  | p :: ps, st =>
    if st.isPaused || st.isAborted then ⟨st, [], [], true⟩
    else
      let r := uploadPart be st p fileSize 0
      let b := batchRun be fileSize ps r.state
      ⟨b.state, r.events ++ b.events, r.calls ++ b.calls, r.ok && b.ok⟩

/-- The TRANSFERRING loop of part_002.  At each iteration the pending flag
update of the schedule is applied (a concurrent pause or abort observed at
the batch boundary), the while condition is checked, the gap scan selects
the next batch, nextPartNumber advances past the batch, and the batch
runs; the loop breaks when the scan finds nothing or the completed count
reaches totalParts, and rethrows when the batch failed. -/
def loop (be : Backend) (fileSize totalParts : Nat) :
    Nat → List FlagUpdate → UploadState → LoopResult
  | 0, _, st => ⟨st, [], [], .fuelOut⟩
  | fuel + 1, sched, st =>
    let st := applyFlags st sched.head?
    if st.isPaused || st.isAborted then ⟨st, [], [], .finished⟩
    else
      match findNextMissing (st.uploadedParts.map (fun e => e.PartNumber))
          st.nextPartNumber totalParts with
      | none => ⟨st, [], [], .finished⟩
      | some first =>
          let batch := collectBatch
            (st.uploadedParts.map (fun e => e.PartNumber)) first totalParts
          let st := { st with nextPartNumber := batch.getLastD first + 1 }
          let b := batchRun be fileSize batch st
          if b.ok then
            if b.state.uploadedParts.length == totalParts then
              ⟨b.state, b.events, b.calls, .finished⟩
            else
              let r := loop be fileSize totalParts fuel sched.tail b.state
              ⟨r.state, b.events ++ r.events, b.calls ++ r.calls, r.exit⟩
          else ⟨b.state, b.events, b.calls, .errored "part upload failed"⟩

/-- The post-loop section of part_002's multipartUpload: the aborted
check (silent return), the paused check (paused event, state retained),
the completed-count guard (throws Upload incomplete, caught as FAILED),
and the CompleteMultipartUploadCommand with terminal bookkeeping. -/
def finishTransfer (be : Backend) (reg : Registry) (sk fp : String)
    (fileSize totalParts : Nat) (st : UploadState) : RunResult :=
  if st.isAborted then ⟨reg, [], [], .abortedOut⟩
  else if st.isPaused then
    ⟨reg, [pausedEvent fp fileSize st.uploadedParts.length totalParts], [],
     .pausedOut⟩
  else if st.uploadedParts.length ≠ totalParts then
    ⟨reg, [failedEvent fp fileSize], [], .failed "Upload incomplete"⟩
  else
    if be.completeOk then
      ⟨eraseReg reg sk, [completedEvent fp fileSize],
       [.completeCall st.uploadedParts], .done⟩
    else
      ⟨reg, [failedEvent fp fileSize], [.completeCall st.uploadedParts],
       .failed "complete failed"⟩

/-- Drive the loop from an initial state (the registry already holds it,
as the source sets it before the loop) and apply the post-loop logic.  The
registry entry tracks the mutated state object, as in the source where the
registry holds a reference to the state being mutated. -/
def runFrom (be : Backend) (reg : Registry) (sk fp : String) (fileSize : Nat)
    (pre : List Call) (st0 : UploadState)
    (sched : List FlagUpdate) : RunResult :=
  let totalParts := totalPartsOf fileSize
  let r := loop be fileSize totalParts (totalParts + 1) sched st0
  match r.exit with
  | .fuelOut => ⟨insertReg reg sk r.state, r.events, pre ++ r.calls, .fuelOut⟩
  | .errored msg =>
      if r.state.isAborted then
        ⟨insertReg reg sk r.state, r.events, pre ++ r.calls, .abortedOut⟩
      else
        ⟨insertReg reg sk r.state, r.events ++ [failedEvent fp fileSize],
         pre ++ r.calls, .failed msg⟩
  | .finished =>
      let f := finishTransfer be (insertReg reg sk r.state) sk fp fileSize
        totalParts r.state
      ⟨f.registry, r.events ++ f.events, pre ++ r.calls ++ f.calls, f.outcome⟩

/-- multipartUpload of part_002: resume path (ListParts seeds
uploadedParts, nextPartNumber reset to 1 to scan for gaps) when a resume
upload id is supplied or a registry entry exists, otherwise initiate a
fresh upload; then run the transfer loop. -/
def multipartUpload (be : Backend) (reg : Registry)
    (bucket key filePath : String) (fileSize : Nat)
    (resumeUploadId : Option String)
    (sched : List FlagUpdate) : RunResult :=
  let sk := stateKey bucket key
  if resumeUploadId.isSome || (lookupReg reg sk).isSome then
    match resumeUploadId.orElse
        (fun _ => (lookupReg reg sk).map (fun s => s.uploadId)) with
    | none =>
        ⟨reg, [failedEvent filePath fileSize], [],
         .failed "No upload ID provided for resume"⟩
    | some uid =>
        let st0 : UploadState :=
          { uploadId := uid, bucket := bucket, key := key,
            filePath := filePath, fileSize := fileSize,
            uploadedParts := be.listParts, nextPartNumber := 1,
            isPaused := false, isAborted := false }
        runFrom be (insertReg reg sk st0) sk filePath fileSize
          [.listPartsCall] st0 sched
  else
    match be.initiateResult with
    | none =>
        ⟨reg, [failedEvent filePath fileSize], [.initiateCall],
         .failed "Failed to initiate multipart upload"⟩
    | some uid =>
        let st0 : UploadState :=
          { uploadId := uid, bucket := bucket, key := key,
            filePath := filePath, fileSize := fileSize,
            uploadedParts := [], nextPartNumber := 1,
            isPaused := false, isAborted := false }
        runFrom be (insertReg reg sk st0) sk filePath fileSize
          [.initiateCall] st0 sched

/-- simpleUpload: one start event, one PutObjectCommand, then a completed
event on success or a failed event on failure.  It never touches the
registry (the source method does not mention uploadStates). -/
def simpleUpload (be : Backend) (filePath : String) (fileSize : Nat) :
    SimpleResult :=
  if be.putOk then
    ⟨[startEvent filePath fileSize,
      { fileName := filePath, uploadedBytes := fileSize,
        totalBytes := fileSize, percentage := 100, currentPart := none,
        totalParts := none, status := .completed }],
     [.putCall], .done⟩
  else
    ⟨[startEvent filePath fileSize, failedEvent filePath fileSize],
     [.putCall], .failed "put failed"⟩

/-- uploadFile: strategy selection on the stat'd size. -/
def uploadFile (be : Backend) (reg : Registry) (bucket key filePath : String)
    (fileSize : Nat) (sched : List FlagUpdate) : RunResult :=
  if fileSize < MULTIPART_THRESHOLD then
    let r := simpleUpload be filePath fileSize
    ⟨reg, r.events, r.calls, r.outcome⟩
  else
    multipartUpload be reg bucket key filePath fileSize none sched

/-- pauseUpload: set isPaused on the matching state if present, no-op
otherwise. -/
def pauseUpload (reg : Registry) (bucket key : String) : Registry :=
  match lookupReg reg (stateKey bucket key) with
  | none => reg
  | some st => insertReg reg (stateKey bucket key) { st with isPaused := true }

/-- abortUpload: if a state is registered, set isAborted, issue the
AbortMultipartUploadCommand and, when it succeeds, delete the entry; if
the backend call throws the deletion is not reached.  No-op when absent.
The Bool reports whether the call returned without throwing. -/
def abortUpload (be : Backend) (reg : Registry) (bucket key : String) :
    Registry × List Call × Bool :=
  let sk := stateKey bucket key
  match lookupReg reg sk with
  | none => (reg, [], true)
  | some st =>
      if be.abortOk then
        (eraseReg reg sk, [.abortCall st.bucket st.key st.uploadId], true)
      else
        (insertReg reg sk { st with isAborted := true },
         [.abortCall st.bucket st.key st.uploadId], false)

/-- resumeUpload: throws when no state is registered; otherwise clears
isPaused and re-enters multipartUpload with the stored upload id. -/
def resumeUpload (be : Backend) (reg : Registry) (bucket key : String)
    (sched : List FlagUpdate) : Except String RunResult :=
  let sk := stateKey bucket key
  match lookupReg reg sk with
  | none => .error ("No paused upload found for " ++ key)
  | some st =>
      let reg' := insertReg reg sk { st with isPaused := false }
      .ok (multipartUpload be reg' st.bucket st.key st.filePath st.fileSize
        (some st.uploadId) sched)

/-- getUploadState: registry lookup. -/
def getUploadState (reg : Registry) (bucket key : String) :
    Option UploadState :=
  lookupReg reg (stateKey bucket key)

end Upload002

namespace Upload003

/-- uploadPart of part_003: a single attempt, no retry, no aborted
check.  A failed attempt rejects immediately. -/
def uploadPart (be : Backend) (st : UploadState) (partNumber fileSize : Nat) :
    PartResult :=
  match be.partETag partNumber 0 with
  | some etag =>
      let parts' := sortParts (st.uploadedParts ++ [⟨partNumber, etag⟩])
      ⟨{ st with uploadedParts := parts' },
       [partProgressEvent st.filePath fileSize parts'.length],
       [.uploadPartCall partNumber], [], true⟩
  | none => ⟨st, [], [.uploadPartCall partNumber], [], false⟩

/-- Promise.all over a batch of part_003 part uploads (no per-part flag
check in this variant's for loop). -/
def batchRun (be : Backend) (fileSize : Nat) :
    List Nat → UploadState → BatchResult
  | [], st => ⟨st, [], [], true⟩
  | p :: ps, st =>
      let r := uploadPart be st p fileSize
      let b := batchRun be fileSize ps r.state
      ⟨b.state, r.events ++ b.events, r.calls ++ b.calls, r.ok && b.ok⟩

/-- The TRANSFERRING loop of part_003: while nextPartNumber has not
passed totalParts and the transfer is not paused, schedule the next
MAX_CONCURRENT_UPLOADS consecutive part numbers starting at the cursor
(no gap scan) and run them as a batch. -/
def loop (be : Backend) (fileSize totalParts : Nat) :
    Nat → List FlagUpdate → UploadState → LoopResult
  | 0, _, st => ⟨st, [], [], .fuelOut⟩
  | fuel + 1, sched, st =>
    let st := applyFlags st sched.head?
    if st.nextPartNumber ≤ totalParts && !st.isPaused then
      let cnt := min MAX_CONCURRENT_UPLOADS (totalParts + 1 - st.nextPartNumber)
      let batch := List.range' st.nextPartNumber cnt
      let st := { st with nextPartNumber := st.nextPartNumber + cnt }
      let b := batchRun be fileSize batch st
      if b.ok then
        let r := loop be fileSize totalParts fuel sched.tail b.state
        ⟨r.state, b.events ++ r.events, b.calls ++ r.calls, r.exit⟩
      else ⟨b.state, b.events, b.calls, .errored "part upload failed"⟩
    else ⟨st, [], [], .finished⟩

/-- The post-loop section of part_003's multipartUpload: a paused check,
then the CompleteMultipartUploadCommand with no completed-count guard and
no aborted special case. -/
def finishTransfer (be : Backend) (reg : Registry) (sk fp : String)
    (fileSize totalParts : Nat) (st : UploadState) : RunResult :=
  if st.isPaused then
    ⟨reg, [pausedEvent fp fileSize st.uploadedParts.length totalParts], [],
     .pausedOut⟩
  else
    if be.completeOk then
      ⟨eraseReg reg sk, [completedEvent fp fileSize],
       [.completeCall st.uploadedParts], .done⟩
    else
      ⟨reg, [failedEvent fp fileSize], [.completeCall st.uploadedParts],
       .failed "complete failed"⟩

/-- Drive part_003's loop from an initial state and apply its post-loop
logic; any thrown error lands in the catch block, which always emits the
failed event (part_003 has no aborted silent return). -/
def runFrom (be : Backend) (reg : Registry) (sk fp : String) (fileSize : Nat)
    (pre : List Call) (st0 : UploadState)
    (sched : List FlagUpdate) : RunResult :=
  let totalParts := totalPartsOf fileSize
  let r := loop be fileSize totalParts (totalParts + 1) sched st0
  match r.exit with
  | .fuelOut => ⟨insertReg reg sk r.state, r.events, pre ++ r.calls, .fuelOut⟩
  | .errored msg =>
      ⟨insertReg reg sk r.state, r.events ++ [failedEvent fp fileSize],
       pre ++ r.calls, .failed msg⟩
  | .finished =>
      let f := finishTransfer be (insertReg reg sk r.state) sk fp fileSize
        totalParts r.state
      ⟨f.registry, r.events ++ f.events, pre ++ r.calls ++ f.calls, f.outcome⟩

/-- multipartUpload of part_003.  The resume path seeds uploadedParts from
ListParts and sets nextPartNumber to uploadedParts.length + 1 (the
monotonic cursor), unlike part_002 which resets it to 1 to scan gaps. -/
def multipartUpload (be : Backend) (reg : Registry)
    (bucket key filePath : String) (fileSize : Nat)
    (resumeUploadId : Option String)
    (sched : List FlagUpdate) : RunResult :=
  let sk := stateKey bucket key
  if resumeUploadId.isSome || (lookupReg reg sk).isSome then
    match resumeUploadId.orElse
        (fun _ => (lookupReg reg sk).map (fun s => s.uploadId)) with
    | none =>
        ⟨reg, [failedEvent filePath fileSize], [],
         .failed "No upload ID provided for resume"⟩
    | some uid =>
        let st0 : UploadState :=
          { uploadId := uid, bucket := bucket, key := key,
            filePath := filePath, fileSize := fileSize,
            uploadedParts := be.listParts,
            nextPartNumber := be.listParts.length + 1,
            isPaused := false, isAborted := false }
        runFrom be (insertReg reg sk st0) sk filePath fileSize
          [.listPartsCall] st0 sched
  else
    match be.initiateResult with
    | none =>
        ⟨reg, [failedEvent filePath fileSize], [.initiateCall],
         .failed "Failed to initiate multipart upload"⟩
    | some uid =>
        let st0 : UploadState :=
          { uploadId := uid, bucket := bucket, key := key,
            filePath := filePath, fileSize := fileSize,
            uploadedParts := [], nextPartNumber := 1,
            isPaused := false, isAborted := false }
        runFrom be (insertReg reg sk st0) sk filePath fileSize
          [.initiateCall] st0 sched

end Upload003

/-! Concrete fixtures: file sizes and backend oracles used to evaluate the
model on specific scenarios. -/

/-- 3 MiB: below the multipart threshold. -/
def FILE3M : Nat := 3 * 1024 * 1024

/-- 6 MiB: above the threshold, 2 parts. -/
def FILE6M : Nat := 6 * 1024 * 1024

/-- 21 MiB: above the threshold, 5 parts. -/
def FILE21M : Nat := 21 * 1024 * 1024

/-- A backend on which every call succeeds and ListParts reports no prior
parts. -/
def beAll : Backend :=
  { putOk := true, initiateResult := some "u1", listParts := [],
    partETag := fun p _ => some ("e" ++ toString p),
    completeOk := true, abortOk := true }

/-- All-success backend whose ListParts reports parts 2 and 4 as already
stored: the resume-with-gaps scenario of the spec. -/
def be24 : Backend := { beAll with listParts := [⟨2, "e2"⟩, ⟨4, "e4"⟩] }

/-- Backend on which every part upload fails twice and succeeds on the
third attempt. -/
def beRetry : Backend :=
  { beAll with partETag := fun _ rc => if rc < 2 then none else some "et" }

/-- Backend on which every part upload attempt fails. -/
def beFail : Backend := { beAll with partETag := fun _ _ => none }

/-- All-success backend whose ListParts reports seven parts for an upload
whose current file plans only five: a backend inconsistency. -/
def be7 : Backend :=
  { beAll with
      listParts := [⟨1, "e1"⟩, ⟨2, "e2"⟩, ⟨3, "e3"⟩, ⟨4, "e4"⟩,
                    ⟨5, "e5"⟩, ⟨6, "e6"⟩, ⟨7, "e7"⟩] }

/-- A fresh transfer state for a 21 MiB file. -/
def stFresh : UploadState :=
  { uploadId := "u1", bucket := "b", key := "k", filePath := "f",
    fileSize := FILE21M, uploadedParts := [], nextPartNumber := 1,
    isPaused := false, isAborted := false }

/-- Extract the complete-multipart calls of a trace, as lists of the part
numbers they carry. -/
def completedPartLists (calls : List Call) : List (List Nat) :=
  calls.filterMap (fun c => match c with
    | .completeCall ps => some (ps.map (fun e => e.PartNumber))
    | _ => none)

/-- The calls of a resumeUpload result (empty when resume threw). -/
def resumeCalls : Except String RunResult → List Call
  | .error _ => []
  | .ok r => r.calls

/-- All-success backend whose ListParts reports exactly the two parts
of a fully completed 6 MiB transfer. -/
def be12 : Backend := { beAll with listParts := [⟨1, "e1"⟩, ⟨2, "e2"⟩] }

/-- A transfer state for a 6 MiB file. -/
def st6M : UploadState := { stFresh with fileSize := FILE6M }

/-- A registry holding the 6 MiB transfer state under its key. -/
def reg6M : Registry := [(stateKey "b" "k", st6M)]

/-! Helper lemmas about the embedding. -/

theorem insertPart_length (e : PartEntry) (l : List PartEntry) :
    (insertPart e l).length = l.length + 1 := by
  induction l with
  | nil => rfl
  | cons x xs ih =>
      simp only [insertPart]
      split <;> simp [ih]

theorem sortParts_length (l : List PartEntry) :
    (sortParts l).length = l.length := by
  induction l with
  | nil => rfl
  | cons x xs ih => simp [sortParts, insertPart_length, ih]

theorem applyFlags_aborted (st : UploadState) (u : Option FlagUpdate)
    (h : st.isAborted = true) : (applyFlags st u).isAborted = true := by
  cases u <;> simp [applyFlags, h]

theorem partProgressEvent_status (fp : String) (fileSize n : Nat) :
    (partProgressEvent fp fileSize n).status = .uploading := rfl

theorem partProgressEvent_pos (fp : String) (fileSize n : Nat)
    (hfs : 0 < fileSize) (hn : 1 ≤ n) :
    0 < (partProgressEvent fp fileSize n).percentage := by
  show (0 : Rat) < min (((n * PART_SIZE : Nat) : Rat) / (fileSize : Rat) * 100) 100
  refine lt_min ?_ (by norm_num)
  have h1 : (0 : Rat) < ((n * PART_SIZE : Nat) : Rat) := by
    have : 0 < n * PART_SIZE := Nat.mul_pos hn (by norm_num [PART_SIZE])
    exact_mod_cast this
  have h2 : (0 : Rat) < (fileSize : Rat) := by exact_mod_cast hfs
  positivity

theorem uploadPartGo_calls (be : Backend) (p fs : Nat) :
    ∀ rl rc st, ∀ c ∈ (Upload002.uploadPartGo be p fs rl rc st).calls,
      c = Call.uploadPartCall p := by
  intro rl
  induction rl with
  | zero =>
      intro rc st c hc
      rw [Upload002.uploadPartGo] at hc
      cases hA : st.isAborted <;> simp [hA] at hc
      cases hE : be.partETag p rc <;> simp [hE] at hc <;> simp [hc]
  | succ rl ih =>
      intro rc st c hc
      rw [Upload002.uploadPartGo] at hc
      cases hA : st.isAborted <;> simp [hA] at hc
      cases hE : be.partETag p rc <;> simp [hE] at hc
      · rcases hc with hc | hc
        · exact hc
        · exact ih (rc + 1) st c hc
      · simp [hc]

theorem uploadPartGo_events (be : Backend) (p fs : Nat) (hfs : 0 < fs) :
    ∀ rl rc st, ∀ ev ∈ (Upload002.uploadPartGo be p fs rl rc st).events,
      ev.status = .uploading ∧ 0 < ev.percentage := by
  intro rl
  induction rl with
  | zero =>
      intro rc st ev hev
      rw [Upload002.uploadPartGo] at hev
      cases hA : st.isAborted <;> simp [hA] at hev
      cases hE : be.partETag p rc <;> simp [hE] at hev
      subst hev
      refine ⟨partProgressEvent_status .., partProgressEvent_pos _ _ _ hfs ?_⟩
      simp [sortParts_length]
  | succ rl ih =>
      intro rc st ev hev
      rw [Upload002.uploadPartGo] at hev
      cases hA : st.isAborted <;> simp [hA] at hev
      cases hE : be.partETag p rc <;> simp [hE] at hev
      · exact ih (rc + 1) st ev hev
      · subst hev
        refine ⟨partProgressEvent_status .., partProgressEvent_pos _ _ _ hfs ?_⟩
        simp [sortParts_length]

theorem batchRun002_calls (be : Backend) (fs : Nat) :
    ∀ batch st, ∀ c ∈ (Upload002.batchRun be fs batch st).calls,
      ∃ p, c = Call.uploadPartCall p := by
  intro batch
  induction batch with
  | nil => intro st c hc; simp [Upload002.batchRun] at hc
  | cons p ps ih =>
      intro st c hc
      rw [Upload002.batchRun] at hc
      by_cases hF : (st.isPaused || st.isAborted) = true
      · simp [hF] at hc
      · simp only [hF, if_false, Bool.false_eq_true] at hc
        simp only [List.mem_append] at hc
        rcases hc with hc | hc
        · exact ⟨p, uploadPartGo_calls be p fs _ _ _ c hc⟩
        · exact ih _ c hc

theorem batchRun002_events (be : Backend) (fs : Nat) (hfs : 0 < fs) :
    ∀ batch st, ∀ ev ∈ (Upload002.batchRun be fs batch st).events,
      ev.status = .uploading ∧ 0 < ev.percentage := by
  intro batch
  induction batch with
  | nil => intro st ev hev; simp [Upload002.batchRun] at hev
  | cons p ps ih =>
      intro st ev hev
      rw [Upload002.batchRun] at hev
      by_cases hF : (st.isPaused || st.isAborted) = true
      · simp [hF] at hev
      · simp only [hF, if_false, Bool.false_eq_true] at hev
        simp only [List.mem_append] at hev
        rcases hev with hev | hev
        · exact uploadPartGo_events be p fs hfs _ _ _ ev hev
        · exact ih _ ev hev

theorem loop002_calls (be : Backend) (fs totalParts : Nat) :
    ∀ fuel sched st, ∀ c ∈ (Upload002.loop be fs totalParts fuel sched st).calls,
      ∃ p, c = Call.uploadPartCall p := by
  intro fuel
  induction fuel with
  | zero => intro sched st c hc; simp [Upload002.loop] at hc
  | succ fuel ih =>
      intro sched st c hc
      rw [Upload002.loop] at hc
      by_cases hF : ((applyFlags st sched.head?).isPaused ||
          (applyFlags st sched.head?).isAborted) = true
      · simp [hF] at hc
      · simp only [hF, if_false, Bool.false_eq_true] at hc
        cases hM : Upload002.findNextMissing
            ((applyFlags st sched.head?).uploadedParts.map (fun e => e.PartNumber))
            (applyFlags st sched.head?).nextPartNumber totalParts with
        | none => simp [hM] at hc
        | some first =>
            simp only [hM] at hc
            by_cases hOk : (Upload002.batchRun be fs
                (Upload002.collectBatch
                  ((applyFlags st sched.head?).uploadedParts.map (fun e => e.PartNumber))
                  first totalParts)
                { applyFlags st sched.head? with
                  nextPartNumber :=
                    (Upload002.collectBatch
                      ((applyFlags st sched.head?).uploadedParts.map (fun e => e.PartNumber))
                      first totalParts).getLastD first + 1 }).ok = true
            · simp only [hOk, if_true] at hc
              split at hc
              · exact batchRun002_calls be fs _ _ c hc
              · simp only [List.mem_append] at hc
                rcases hc with hc | hc
                · exact batchRun002_calls be fs _ _ c hc
                · exact ih _ _ c hc
            · simp only [hOk, Bool.false_eq_true, if_false] at hc
              exact batchRun002_calls be fs _ _ c hc

theorem loop002_events (be : Backend) (fs totalParts : Nat) (hfs : 0 < fs) :
    ∀ fuel sched st, ∀ ev ∈ (Upload002.loop be fs totalParts fuel sched st).events,
      ev.status = .uploading ∧ 0 < ev.percentage := by
  intro fuel
  induction fuel with
  | zero => intro sched st ev hev; simp [Upload002.loop] at hev
  | succ fuel ih =>
      intro sched st ev hev
      rw [Upload002.loop] at hev
      by_cases hF : ((applyFlags st sched.head?).isPaused ||
          (applyFlags st sched.head?).isAborted) = true
      · simp [hF] at hev
      · simp only [hF, if_false, Bool.false_eq_true] at hev
        cases hM : Upload002.findNextMissing
            ((applyFlags st sched.head?).uploadedParts.map (fun e => e.PartNumber))
            (applyFlags st sched.head?).nextPartNumber totalParts with
        | none => simp [hM] at hev
        | some first =>
            simp only [hM] at hev
            by_cases hOk : (Upload002.batchRun be fs
                (Upload002.collectBatch
                  ((applyFlags st sched.head?).uploadedParts.map (fun e => e.PartNumber))
                  first totalParts)
                { applyFlags st sched.head? with
                  nextPartNumber :=
                    (Upload002.collectBatch
                      ((applyFlags st sched.head?).uploadedParts.map (fun e => e.PartNumber))
                      first totalParts).getLastD first + 1 }).ok = true
            · simp only [hOk, if_true] at hev
              split at hev
              · exact batchRun002_events be fs hfs _ _ ev hev
              · simp only [List.mem_append] at hev
                rcases hev with hev | hev
                · exact batchRun002_events be fs hfs _ _ ev hev
                · exact ih _ _ ev hev
            · simp only [hOk, Bool.false_eq_true, if_false] at hev
              exact batchRun002_events be fs hfs _ _ ev hev

theorem finish002_complete_mem (be : Backend) (reg : Registry) (sk fp : String)
    (fileSize totalParts : Nat) (st : UploadState) :
    ∀ ps, Call.completeCall ps ∈
        (Upload002.finishTransfer be reg sk fp fileSize totalParts st).calls →
      ps.length = totalParts := by
  intro ps hps
  unfold Upload002.finishTransfer at hps
  cases hA : st.isAborted <;> simp [hA] at hps
  cases hP : st.isPaused <;> simp [hP] at hps
  by_cases hL : st.uploadedParts.length = totalParts
  · simp only [hL, ne_eq, not_true_eq_false, if_false] at hps
    cases hC : be.completeOk <;> simp [hC] at hps
    · rw [hps]; exact hL
    · rw [hps]; exact hL
  · simp [hL] at hps

theorem finish002_failed_events (be : Backend) (reg : Registry) (sk fp : String)
    (fileSize totalParts : Nat) (st : UploadState) (msg : String)
    (h : (Upload002.finishTransfer be reg sk fp fileSize totalParts st).outcome
      = .failed msg) :
    (Upload002.finishTransfer be reg sk fp fileSize totalParts st).events
      = [failedEvent fp fileSize] := by
  unfold Upload002.finishTransfer at h ⊢
  cases hA : st.isAborted <;> simp [hA] at h ⊢
  cases hP : st.isPaused <;> simp [hP] at h ⊢
  by_cases hL : st.uploadedParts.length = totalParts
  · simp only [hL, ne_eq, not_true_eq_false, if_false] at h ⊢
    cases hC : be.completeOk <;> simp [hC] at h ⊢
  · simp [hL]

theorem finish002_done_events (be : Backend) (reg : Registry) (sk fp : String)
    (fileSize totalParts : Nat) (st : UploadState)
    (h : (Upload002.finishTransfer be reg sk fp fileSize totalParts st).outcome
      = .done) :
    (Upload002.finishTransfer be reg sk fp fileSize totalParts st).events
      = [completedEvent fp fileSize] := by
  unfold Upload002.finishTransfer at h ⊢
  cases hA : st.isAborted <;> simp [hA] at h ⊢
  cases hP : st.isPaused <;> simp [hP] at h ⊢
  by_cases hL : st.uploadedParts.length = totalParts
  · simp only [hL, ne_eq, not_true_eq_false, if_false] at h ⊢
    cases hC : be.completeOk <;> simp [hC] at h ⊢
  · simp [hL] at h

theorem finish002_paused_events (be : Backend) (reg : Registry) (sk fp : String)
    (fileSize totalParts : Nat) (st : UploadState)
    (h : (Upload002.finishTransfer be reg sk fp fileSize totalParts st).outcome
      = .pausedOut) :
    (Upload002.finishTransfer be reg sk fp fileSize totalParts st).events
      = [pausedEvent fp fileSize st.uploadedParts.length totalParts] := by
  unfold Upload002.finishTransfer at h ⊢
  cases hA : st.isAborted <;> simp [hA] at h ⊢
  cases hP : st.isPaused <;> simp [hP] at h ⊢
  by_cases hL : st.uploadedParts.length = totalParts
  · simp only [hL, ne_eq, not_true_eq_false, if_false] at h ⊢
    cases hC : be.completeOk <;> simp [hC] at h ⊢
  · simp [hL] at h

theorem finish002_no_uploading (be : Backend) (reg : Registry) (sk fp : String)
    (fileSize totalParts : Nat) (st : UploadState) :
    ∀ ev ∈ (Upload002.finishTransfer be reg sk fp fileSize totalParts st).events,
      ev.status ≠ .uploading := by
  intro ev hev
  unfold Upload002.finishTransfer at hev
  cases hA : st.isAborted <;> simp [hA] at hev
  cases hP : st.isPaused <;> simp [hP] at hev
  · by_cases hL : st.uploadedParts.length = totalParts
    · simp only [hL, ne_eq, not_true_eq_false, if_false] at hev
      cases hC : be.completeOk <;> simp [hC] at hev <;>
        simp [hev, failedEvent, completedEvent]
    · rw [if_neg hL] at hev
      simp only [List.mem_singleton] at hev
      simp [hev, failedEvent]
  · simp [hev, pausedEvent]

theorem runFrom002_complete_mem (be : Backend) (reg : Registry) (sk fp : String)
    (fileSize : Nat) (pre : List Call) (st0 : UploadState)
    (sched : List FlagUpdate)
    (hpre : ∀ ps, Call.completeCall ps ∉ pre) :
    ∀ ps, Call.completeCall ps ∈
        (Upload002.runFrom be reg sk fp fileSize pre st0 sched).calls →
      ps.length = totalPartsOf fileSize := by
  intro ps hps
  simp only [Upload002.runFrom] at hps
  cases hE : (Upload002.loop be fileSize (totalPartsOf fileSize)
      (totalPartsOf fileSize + 1) sched st0).exit with
  | fuelOut =>
      simp only [hE, List.mem_append] at hps
      rcases hps with hps | hps
      · exact absurd hps (hpre ps)
      · obtain ⟨p, hp⟩ := loop002_calls be fileSize (totalPartsOf fileSize)
          _ _ _ _ hps
        simp at hp
  | errored msg =>
      simp only [hE] at hps
      split at hps <;>
      · simp only [List.mem_append] at hps
        rcases hps with hps | hps
        · exact absurd hps (hpre ps)
        · obtain ⟨p, hp⟩ := loop002_calls be fileSize (totalPartsOf fileSize)
            _ _ _ _ hps
          simp at hp
  | finished =>
      simp only [hE, List.mem_append] at hps
      rcases hps with (hps | hps) | hps
      · exact absurd hps (hpre ps)
      · obtain ⟨p, hp⟩ := loop002_calls be fileSize (totalPartsOf fileSize)
          _ _ _ _ hps
        simp at hp
      · exact finish002_complete_mem be _ sk fp fileSize (totalPartsOf fileSize)
          _ ps hps

theorem runFrom002_failed_last (be : Backend) (reg : Registry) (sk fp : String)
    (fileSize : Nat) (pre : List Call) (st0 : UploadState)
    (sched : List FlagUpdate) (msg : String)
    (h : (Upload002.runFrom be reg sk fp fileSize pre st0 sched).outcome
      = .failed msg) :
    (Upload002.runFrom be reg sk fp fileSize pre st0 sched).events.getLast?
      = some (failedEvent fp fileSize) := by
  simp only [Upload002.runFrom] at h ⊢
  rcases hR : Upload002.loop be fileSize (totalPartsOf fileSize)
      (totalPartsOf fileSize + 1) sched st0 with ⟨lst, lev, lcalls, lexit⟩
  rw [hR] at h
  dsimp only at h ⊢
  cases lexit with
  | fuelOut => simp at h
  | errored m =>
      by_cases hA : lst.isAborted = true
      · simp [hA] at h
      · simp [hA, List.getLast?_append]
  | finished =>
      have hfin := finish002_failed_events be (insertReg reg sk lst) sk fp
        fileSize (totalPartsOf fileSize) lst msg h
      show (lev ++ (Upload002.finishTransfer be (insertReg reg sk lst) sk fp
        fileSize (totalPartsOf fileSize) lst).events).getLast?
        = some (failedEvent fp fileSize)
      rw [hfin, List.getLast?_append]
      rfl

theorem runFrom002_done_last (be : Backend) (reg : Registry) (sk fp : String)
    (fileSize : Nat) (pre : List Call) (st0 : UploadState)
    (sched : List FlagUpdate)
    (h : (Upload002.runFrom be reg sk fp fileSize pre st0 sched).outcome
      = .done) :
    (Upload002.runFrom be reg sk fp fileSize pre st0 sched).events.getLast?
      = some (completedEvent fp fileSize) := by
  simp only [Upload002.runFrom] at h ⊢
  rcases hR : Upload002.loop be fileSize (totalPartsOf fileSize)
      (totalPartsOf fileSize + 1) sched st0 with ⟨lst, lev, lcalls, lexit⟩
  rw [hR] at h
  dsimp only at h ⊢
  cases lexit with
  | fuelOut => simp at h
  | errored m =>
      by_cases hA : lst.isAborted = true <;> simp [hA] at h
  | finished =>
      have hfin := finish002_done_events be (insertReg reg sk lst) sk fp
        fileSize (totalPartsOf fileSize) lst h
      show (lev ++ (Upload002.finishTransfer be (insertReg reg sk lst) sk fp
        fileSize (totalPartsOf fileSize) lst).events).getLast?
        = some (completedEvent fp fileSize)
      rw [hfin, List.getLast?_append]
      rfl

theorem runFrom002_paused_last (be : Backend) (reg : Registry) (sk fp : String)
    (fileSize : Nat) (pre : List Call) (st0 : UploadState)
    (sched : List FlagUpdate)
    (h : (Upload002.runFrom be reg sk fp fileSize pre st0 sched).outcome
      = .pausedOut) :
    ∃ ev, (Upload002.runFrom be reg sk fp fileSize pre st0 sched).events.getLast?
      = some ev ∧ ev.status = .paused := by
  simp only [Upload002.runFrom] at h ⊢
  rcases hR : Upload002.loop be fileSize (totalPartsOf fileSize)
      (totalPartsOf fileSize + 1) sched st0 with ⟨lst, lev, lcalls, lexit⟩
  rw [hR] at h
  dsimp only at h ⊢
  cases lexit with
  | fuelOut => simp at h
  | errored m =>
      by_cases hA : lst.isAborted = true <;> simp [hA] at h
  | finished =>
      have hfin := finish002_paused_events be (insertReg reg sk lst) sk fp
        fileSize (totalPartsOf fileSize) lst h
      refine ⟨pausedEvent fp fileSize lst.uploadedParts.length
        (totalPartsOf fileSize), ?_, rfl⟩
      show (lev ++ (Upload002.finishTransfer be (insertReg reg sk lst) sk fp
        fileSize (totalPartsOf fileSize) lst).events).getLast? = _
      rw [hfin, List.getLast?_append]
      rfl

theorem runFrom002_uploading_pos (be : Backend) (reg : Registry) (sk fp : String)
    (fileSize : Nat) (pre : List Call) (st0 : UploadState)
    (sched : List FlagUpdate) (hfs : 0 < fileSize) :
    ∀ ev ∈ (Upload002.runFrom be reg sk fp fileSize pre st0 sched).events,
      ev.status = .uploading → 0 < ev.percentage := by
  intro ev hev hst
  have hloopev : ∀ e ∈ (Upload002.loop be fileSize (totalPartsOf fileSize)
      (totalPartsOf fileSize + 1) sched st0).events,
      e.status = .uploading ∧ 0 < e.percentage :=
    loop002_events be fileSize (totalPartsOf fileSize) hfs _ _ _
  simp only [Upload002.runFrom] at hev
  rcases hR : Upload002.loop be fileSize (totalPartsOf fileSize)
      (totalPartsOf fileSize + 1) sched st0 with ⟨lst, lev, lcalls, lexit⟩
  rw [hR] at hev hloopev
  dsimp only at hev hloopev
  cases lexit with
  | fuelOut => exact (hloopev ev hev).2
  | errored m =>
      by_cases hA : lst.isAborted = true
      · simp only [if_pos hA] at hev
        exact (hloopev ev hev).2
      · simp only [if_neg hA, List.mem_append] at hev
        rcases hev with hev | hev
        · exact (hloopev ev hev).2
        · simp only [List.mem_singleton] at hev
          rw [hev] at hst
          simp [failedEvent] at hst
  | finished =>
      simp only [List.mem_append] at hev
      rcases hev with hev | hev
      · exact (hloopev ev hev).2
      · exact absurd hst (finish002_no_uploading be (insertReg reg sk lst) sk fp
          fileSize (totalPartsOf fileSize) lst ev hev)

theorem multipart002_failed_last (be : Backend) (reg : Registry)
    (bucket key fp : String) (fileSize : Nat) (uid : Option String)
    (sched : List FlagUpdate) (msg : String)
    (h : (Upload002.multipartUpload be reg bucket key fp fileSize uid
      sched).outcome = .failed msg) :
    (Upload002.multipartUpload be reg bucket key fp fileSize uid
      sched).events.getLast? = some (failedEvent fp fileSize) := by
  simp only [Upload002.multipartUpload] at h ⊢
  by_cases hG : (uid.isSome
      || (lookupReg reg (stateKey bucket key)).isSome) = true
  · rw [if_pos hG] at h ⊢
    cases hO : uid.orElse
        (fun _ => (lookupReg reg (stateKey bucket key)).map
          (fun s => s.uploadId)) with
    | none => rw [hO] at h; rfl
    | some u =>
        rw [hO] at h
        exact runFrom002_failed_last be _ _ fp fileSize _ _ sched msg h
  · rw [if_neg hG] at h ⊢
    cases hI : be.initiateResult with
    | none => rw [hI] at h; rfl
    | some u =>
        rw [hI] at h
        exact runFrom002_failed_last be _ _ fp fileSize _ _ sched msg h

theorem multipart002_done_last (be : Backend) (reg : Registry)
    (bucket key fp : String) (fileSize : Nat) (uid : Option String)
    (sched : List FlagUpdate)
    (h : (Upload002.multipartUpload be reg bucket key fp fileSize uid
      sched).outcome = .done) :
    (Upload002.multipartUpload be reg bucket key fp fileSize uid
      sched).events.getLast? = some (completedEvent fp fileSize) := by
  simp only [Upload002.multipartUpload] at h ⊢
  by_cases hG : (uid.isSome
      || (lookupReg reg (stateKey bucket key)).isSome) = true
  · rw [if_pos hG] at h ⊢
    cases hO : uid.orElse
        (fun _ => (lookupReg reg (stateKey bucket key)).map
          (fun s => s.uploadId)) with
    | none => rw [hO] at h; simp at h
    | some u =>
        rw [hO] at h
        exact runFrom002_done_last be _ _ fp fileSize _ _ sched h
  · rw [if_neg hG] at h ⊢
    cases hI : be.initiateResult with
    | none => rw [hI] at h; simp at h
    | some u =>
        rw [hI] at h
        exact runFrom002_done_last be _ _ fp fileSize _ _ sched h

theorem multipart002_paused_last (be : Backend) (reg : Registry)
    (bucket key fp : String) (fileSize : Nat) (uid : Option String)
    (sched : List FlagUpdate)
    (h : (Upload002.multipartUpload be reg bucket key fp fileSize uid
      sched).outcome = .pausedOut) :
    ∃ ev, (Upload002.multipartUpload be reg bucket key fp fileSize uid
      sched).events.getLast? = some ev ∧ ev.status = .paused := by
  simp only [Upload002.multipartUpload] at h ⊢
  by_cases hG : (uid.isSome
      || (lookupReg reg (stateKey bucket key)).isSome) = true
  · rw [if_pos hG] at h ⊢
    cases hO : uid.orElse
        (fun _ => (lookupReg reg (stateKey bucket key)).map
          (fun s => s.uploadId)) with
    | none => rw [hO] at h; simp at h
    | some u =>
        rw [hO] at h
        exact runFrom002_paused_last be _ _ fp fileSize _ _ sched h
  · rw [if_neg hG] at h ⊢
    cases hI : be.initiateResult with
    | none => rw [hI] at h; simp at h
    | some u =>
        rw [hI] at h
        exact runFrom002_paused_last be _ _ fp fileSize _ _ sched h

theorem multipart002_uploading_pos (be : Backend) (reg : Registry)
    (bucket key fp : String) (fileSize : Nat) (uid : Option String)
    (sched : List FlagUpdate) (hfs : 0 < fileSize) :
    ∀ ev ∈ (Upload002.multipartUpload be reg bucket key fp fileSize uid
      sched).events, ev.status = .uploading → 0 < ev.percentage := by
  intro ev hev hst
  simp only [Upload002.multipartUpload] at hev
  by_cases hG : (uid.isSome
      || (lookupReg reg (stateKey bucket key)).isSome) = true
  · rw [if_pos hG] at hev
    cases hO : uid.orElse
        (fun _ => (lookupReg reg (stateKey bucket key)).map
          (fun s => s.uploadId)) with
    | none =>
        rw [hO] at hev
        simp only [List.mem_singleton] at hev
        rw [hev] at hst
        simp [failedEvent] at hst
    | some u =>
        rw [hO] at hev
        exact runFrom002_uploading_pos be _ _ fp fileSize _ _ sched hfs ev hev hst
  · rw [if_neg hG] at hev
    cases hI : be.initiateResult with
    | none =>
        rw [hI] at hev
        simp only [List.mem_singleton] at hev
        rw [hev] at hst
        simp [failedEvent] at hst
    | some u =>
        rw [hI] at hev
        exact runFrom002_uploading_pos be _ _ fp fileSize _ _ sched hfs ev hev hst

theorem multipart002_complete_length (be : Backend) (reg : Registry)
    (bucket key fp : String) (fileSize : Nat) (uid : Option String)
    (sched : List FlagUpdate) :
    ∀ ps, Call.completeCall ps ∈ (Upload002.multipartUpload be reg bucket key
      fp fileSize uid sched).calls → ps.length = totalPartsOf fileSize := by
  intro ps hps
  simp only [Upload002.multipartUpload] at hps
  by_cases hG : (uid.isSome
      || (lookupReg reg (stateKey bucket key)).isSome) = true
  · rw [if_pos hG] at hps
    cases hO : uid.orElse
        (fun _ => (lookupReg reg (stateKey bucket key)).map
          (fun s => s.uploadId)) with
    | none => rw [hO] at hps; simp at hps
    | some u =>
        rw [hO] at hps
        exact runFrom002_complete_mem be _ _ fp fileSize _ _ sched
          (by intro qs hqs; simp at hqs) ps hps
  · rw [if_neg hG] at hps
    cases hI : be.initiateResult with
    | none => rw [hI] at hps; simp at hps
    | some u =>
        rw [hI] at hps
        exact runFrom002_complete_mem be _ _ fp fileSize _ _ sched
          (by intro qs hqs; simp at hqs) ps hps

theorem findNextMissing_none (uploaded : List Nat) (next totalParts : Nat)
    (h : ∀ i ∈ List.range' 1 totalParts, uploaded.contains i = true) :
    Upload002.findNextMissing uploaded next totalParts = none := by
  unfold Upload002.findNextMissing
  rw [List.find?_eq_none]
  intro x hx
  simp only [Bool.not_eq_true, Bool.and_eq_false_iff, Bool.not_eq_false]
  left
  rw [h x hx]
  rfl

theorem loop002_full_set (be : Backend) (fileSize totalParts fuel : Nat)
    (st0 : UploadState) (hP : st0.isPaused = false) (hA : st0.isAborted = false)
    (hall : ∀ i ∈ List.range' 1 totalParts,
      (st0.uploadedParts.map (fun e => e.PartNumber)).contains i = true) :
    Upload002.loop be fileSize totalParts (fuel + 1) [] st0
      = ⟨st0, [], [], .finished⟩ := by
  rw [Upload002.loop]
  have ha : applyFlags st0 (List.head? ([] : List FlagUpdate)) = st0 := rfl
  rw [ha, hP, hA]
  rw [findNextMissing_none _ _ _ hall]
  simp

theorem lookup_erase_self (reg : Registry) (k : String) :
    lookupReg (eraseReg reg k) k = none := by
  unfold lookupReg eraseReg
  rw [Option.map_eq_none', List.find?_eq_none]
  intro x hx
  rw [List.mem_filter] at hx
  simpa using hx.2

theorem uploadPartGo_aborted (be : Backend) (p fs rl rc : Nat)
    (st : UploadState) (h : st.isAborted = true) :
    (Upload002.uploadPartGo be p fs rl rc st).calls = [] := by
  cases rl <;> rw [Upload002.uploadPartGo] <;> simp [h]

/-! Claim theorems. -/

/-- C1: resuming a transfer whose completed-part set is the non-contiguous
subset containing parts 2 and 4 of 5 planned parts.  The gap-scanning
implementation (part_002) issues part uploads for exactly the missing
indices 1, 3, 5 and completes; the cursor implementation (part_003)
resumes at nextPartNumber = 3 and issues parts 3, 4, 5 instead,
re-uploading already-completed part 4, skipping missing part 1, and then
finalizing with the duplicated part list 2, 3, 4, 4, 5. -/
theorem claim1_gap_resume_eval :
    issuedParts (Upload002.multipartUpload be24 [] "b" "k" "f" FILE21M
      (some "u1") []).calls = [1, 3, 5] ∧
    (Upload002.multipartUpload be24 [] "b" "k" "f" FILE21M
      (some "u1") []).outcome = .done ∧
    issuedParts (Upload003.multipartUpload be24 [] "b" "k" "f" FILE21M
      (some "u1") []).calls = [3, 4, 5] ∧
    completedPartLists (Upload003.multipartUpload be24 [] "b" "k" "f" FILE21M
      (some "u1") []).calls = [[2, 3, 4, 4, 5]] ∧
    totalPartsOf FILE21M = 5 := by
  refine ⟨?_, ?_, ?_, ?_, ?_⟩ <;> decide

/-- C2: retry behaviour of a part upload.  In part_002 a part whose first
two attempts fail and whose third succeeds resolves successfully, sleeps
1000 and 2000 milliseconds of backoff, and records the part exactly once;
a part all four of whose attempts fail issues four upload calls with
backoff 1000, 2000, 3000 before surfacing the failure.  In part_003 the
same failing part is never retried: one call, no backoff, immediate
failure, and nothing recorded. -/
theorem claim2_retry_eval :
    ((Upload002.uploadPart beRetry stFresh 1 FILE21M 0).ok = true ∧
     (Upload002.uploadPart beRetry stFresh 1 FILE21M 0).delays = [1000, 2000] ∧
     (Upload002.uploadPart beRetry stFresh 1 FILE21M 0).calls.length = 3 ∧
     ((Upload002.uploadPart beRetry stFresh 1 FILE21M 0).state.uploadedParts.filter
        (fun e => e.PartNumber == 1)).length = 1) ∧
    ((Upload002.uploadPart beFail stFresh 1 FILE21M 0).ok = false ∧
     (Upload002.uploadPart beFail stFresh 1 FILE21M 0).delays
        = [1000, 2000, 3000] ∧
     (Upload002.uploadPart beFail stFresh 1 FILE21M 0).calls.length = 4) ∧
    ((Upload003.uploadPart beRetry stFresh 1 FILE21M).ok = false ∧
     (Upload003.uploadPart beRetry stFresh 1 FILE21M).delays = [] ∧
     (Upload003.uploadPart beRetry stFresh 1 FILE21M).calls
        = [Call.uploadPartCall 1] ∧
     (Upload003.uploadPart beRetry stFresh 1 FILE21M).state.uploadedParts
        = []) := by
  refine ⟨⟨?_, ?_, ?_, ?_⟩, ⟨?_, ?_, ?_⟩, ⟨?_, ?_, ?_, ?_⟩⟩ <;> decide

/-- C3: for every file size strictly below the multipart threshold,
uploadFile issues exactly one put call, leaves the registry untouched,
and getUploadState answers for every key exactly as before the call. -/
theorem claim3_simple_path (be : Backend) (reg : Registry)
    (bucket key fp : String) (fileSize : Nat) (sched : List FlagUpdate)
    (h : fileSize < MULTIPART_THRESHOLD) :
    (Upload002.uploadFile be reg bucket key fp fileSize sched).calls
      = [Call.putCall] ∧
    (Upload002.uploadFile be reg bucket key fp fileSize sched).registry
      = reg ∧
    ∀ b k, Upload002.getUploadState
        (Upload002.uploadFile be reg bucket key fp fileSize sched).registry b k
      = Upload002.getUploadState reg b k := by
  unfold Upload002.uploadFile
  rw [if_pos h]
  refine ⟨?_, rfl, fun b k => rfl⟩
  show (Upload002.simpleUpload be fp fileSize).calls = [Call.putCall]
  unfold Upload002.simpleUpload
  cases hp : be.putOk <;> simp [hp]

/-- Witness for C3 at a concrete 3 MiB upload. -/
theorem claim3_simple_path_witness :
    (Upload002.uploadFile beAll [] "b" "k" "f" FILE3M []).calls
      = [Call.putCall] ∧
    (Upload002.uploadFile beAll [] "b" "k" "f" FILE3M []).registry
      = ([] : Registry) ∧
    Upload002.getUploadState
        (Upload002.uploadFile beAll [] "b" "k" "f" FILE3M []).registry "b" "k"
      = Upload002.getUploadState ([] : Registry) "b" "k" := by
  have h := claim3_simple_path beAll [] "b" "k" "f" FILE3M [] (by decide)
  exact ⟨h.1, h.2.1, h.2.2 "b" "k"⟩

/-- C5: the completed-count guard at finalization.  In part_002, for every
multipart run, any CompleteMultipartUpload call carries exactly
totalPartsOf fileSize parts, and at the concrete backend-inconsistency
input (ListParts reports 7 parts for a 5-part file) part_002 fails with
the Upload incomplete error and issues no finalize call; part_003, which
lacks the guard, issues the finalize call with 7 parts and reports
success at the same input. -/
theorem claim5_finalize_guard :
    (∀ (be : Backend) (reg : Registry) (bucket key fp : String)
        (fileSize : Nat) (uid : Option String) (sched : List FlagUpdate)
        (ps : List PartEntry),
      Call.completeCall ps ∈ (Upload002.multipartUpload be reg bucket key fp
        fileSize uid sched).calls → ps.length = totalPartsOf fileSize) ∧
    (Upload002.multipartUpload be7 [] "b" "k" "f" FILE21M (some "u1")
      []).outcome = .failed "Upload incomplete" ∧
    completedPartLists (Upload002.multipartUpload be7 [] "b" "k" "f" FILE21M
      (some "u1") []).calls = [] ∧
    (Upload003.multipartUpload be7 [] "b" "k" "f" FILE21M (some "u1")
      []).outcome = .done ∧
    completedPartLists (Upload003.multipartUpload be7 [] "b" "k" "f" FILE21M
      (some "u1") []).calls = [[1, 2, 3, 4, 5, 6, 7]] := by
  refine ⟨?_, ?_, ?_, ?_, ?_⟩
  · intro be reg bucket key fp fileSize uid sched ps hps
    exact multipart002_complete_length be reg bucket key fp fileSize uid sched
      ps hps
  · decide
  · decide
  · decide
  · decide

/-- Witness for C5: application of the universally quantified conjunct at
a concrete successful 6 MiB (2-part) upload whose finalize call carries
parts 1 and 2. -/
theorem claim5_finalize_guard_witness :
    ([(⟨1, "e1"⟩ : PartEntry), ⟨2, "e2"⟩] : List PartEntry).length
      = totalPartsOf FILE6M :=
  claim5_finalize_guard.1 beAll [] "b" "k" "f" FILE6M none [] _ (by decide)

/-- C6: once the aborted flag of a transfer state is true, the remainder
of the part_002 transfer loop issues no backend calls at all (whatever
fuel, schedule, and planned totals remain), and a pending uploadPart
task for that state issues no upload either. -/
theorem claim6_aborted_no_uploads (be : Backend) (fileSize totalParts fuel : Nat)
    (sched : List FlagUpdate) (st : UploadState) (h : st.isAborted = true) :
    (Upload002.loop be fileSize totalParts fuel sched st).calls = [] ∧
    ∀ p rc, (Upload002.uploadPart be st p fileSize rc).calls = [] := by
  constructor
  · cases fuel with
    | zero => rfl
    | succ fuel =>
        rw [Upload002.loop]
        have hA : (applyFlags st sched.head?).isAborted = true :=
          applyFlags_aborted st _ h
        simp [hA]
  · intro p rc
    exact uploadPartGo_aborted be p fileSize (3 - rc) rc st h

/-- Witness for C6 at a concrete aborted state. -/
theorem claim6_aborted_no_uploads_witness :
    (Upload002.loop beAll FILE21M 5 6 []
      { stFresh with isAborted := true }).calls = [] ∧
    (Upload002.uploadPart beAll { stFresh with isAborted := true } 1 FILE21M
      0).calls = [] := by
  have h := claim6_aborted_no_uploads beAll FILE21M 5 6 []
    { stFresh with isAborted := true } (by decide)
  exact ⟨h.1, h.2 1 0⟩

/-- C8: for a key with no registered transfer state, pauseUpload returns
with the registry unchanged, abortUpload returns with the registry
unchanged, no backend call and no exception, and resumeUpload throws the
no-paused-upload error. -/
theorem claim8_missing_state (be : Backend) (reg : Registry)
    (bucket key : String) (sched : List FlagUpdate)
    (h : lookupReg reg (stateKey bucket key) = none) :
    Upload002.pauseUpload reg bucket key = reg ∧
    Upload002.abortUpload be reg bucket key = (reg, [], true) ∧
    Upload002.resumeUpload be reg bucket key sched
      = .error ("No paused upload found for " ++ key) := by
  refine ⟨?_, ?_, ?_⟩
  · unfold Upload002.pauseUpload
    rw [h]
  · simp only [Upload002.abortUpload]
    rw [h]
  · simp only [Upload002.resumeUpload]
    rw [h]

/-- Witness for C8 on the empty registry. -/
theorem claim8_missing_state_witness :
    Upload002.pauseUpload [] "b" "k" = ([] : Registry) ∧
    Upload002.abortUpload beAll [] "b" "k" = (([] : Registry), [], true) ∧
    Upload002.resumeUpload beAll [] "b" "k" []
      = .error ("No paused upload found for " ++ "k") :=
  claim8_missing_state beAll [] "b" "k" [] (by decide)

/-- C9: for a key with a registered transfer state and a backend whose
abort call succeeds, abortUpload issues the abort call for the stored
transfer identity and removes the registry entry, after which
getUploadState answers absent and a second abortUpload is a no-op that
issues no backend call. -/
theorem claim9_abort_removes (be : Backend) (reg : Registry)
    (bucket key : String) (st : UploadState)
    (hlk : lookupReg reg (stateKey bucket key) = some st)
    (hok : be.abortOk = true) :
    Upload002.abortUpload be reg bucket key
      = (eraseReg reg (stateKey bucket key),
         [Call.abortCall st.bucket st.key st.uploadId], true) ∧
    Upload002.getUploadState (eraseReg reg (stateKey bucket key)) bucket key
      = none ∧
    Upload002.abortUpload be (eraseReg reg (stateKey bucket key)) bucket key
      = (eraseReg reg (stateKey bucket key), [], true) := by
  refine ⟨?_, ?_, ?_⟩
  · simp only [Upload002.abortUpload]
    rw [hlk]
    simp [hok]
  · exact lookup_erase_self reg (stateKey bucket key)
  · simp only [Upload002.abortUpload]
    rw [lookup_erase_self reg (stateKey bucket key)]

/-- Witness for C9 on a one-entry registry. -/
theorem claim9_abort_removes_witness :
    Upload002.abortUpload beAll [(stateKey "b" "k", stFresh)] "b" "k"
      = (eraseReg [(stateKey "b" "k", stFresh)] (stateKey "b" "k"),
         [Call.abortCall stFresh.bucket stFresh.key stFresh.uploadId], true) ∧
    Upload002.getUploadState
        (eraseReg [(stateKey "b" "k", stFresh)] (stateKey "b" "k")) "b" "k"
      = none ∧
    Upload002.abortUpload beAll
        (eraseReg [(stateKey "b" "k", stFresh)] (stateKey "b" "k")) "b" "k"
      = (eraseReg [(stateKey "b" "k", stFresh)] (stateKey "b" "k"), [], true) :=
  claim9_abort_removes beAll [(stateKey "b" "k", stFresh)] "b" "k" stFresh
    (by decide) (by decide)

theorem resumeUpload_some (be : Backend) (reg : Registry)
    (bucket key : String) (sched : List FlagUpdate) (st : UploadState)
    (hlk : lookupReg reg (stateKey bucket key) = some st) :
    Upload002.resumeUpload be reg bucket key sched
      = .ok (Upload002.multipartUpload be
          (insertReg reg (stateKey bucket key) { st with isPaused := false })
          st.bucket st.key st.filePath st.fileSize (some st.uploadId) sched) := by
  simp only [Upload002.resumeUpload]
  rw [hlk]

theorem runFrom002_full_set (be : Backend) (reg : Registry) (sk fp : String)
    (fileSize : Nat) (pre : List Call) (st0 : UploadState)
    (hP : st0.isPaused = false) (hA : st0.isAborted = false)
    (hparts : st0.uploadedParts = be.listParts)
    (hmap : be.listParts.map (fun e => e.PartNumber)
      = List.range' 1 (totalPartsOf fileSize)) :
    (Upload002.runFrom be reg sk fp fileSize pre st0 []).calls
      = pre ++ [Call.completeCall be.listParts] := by
  have hlen : st0.uploadedParts.length = totalPartsOf fileSize := by
    have h := congrArg List.length hmap
    rw [hparts]
    simpa using h
  have hall : ∀ i ∈ List.range' 1 (totalPartsOf fileSize),
      (st0.uploadedParts.map (fun e => e.PartNumber)).contains i = true := by
    intro i hi
    rw [hparts, hmap]
    exact List.elem_eq_true_of_mem hi
  have hloop := loop002_full_set be fileSize (totalPartsOf fileSize)
    (totalPartsOf fileSize) st0 hP hA hall
  simp only [Upload002.runFrom]
  rw [hloop]
  show pre ++ [] ++ (Upload002.finishTransfer be (insertReg reg sk st0) sk fp
    fileSize (totalPartsOf fileSize) st0).calls
    = pre ++ [Call.completeCall be.listParts]
  have hfin : (Upload002.finishTransfer be (insertReg reg sk st0) sk fp
      fileSize (totalPartsOf fileSize) st0).calls
      = [Call.completeCall be.listParts] := by
    unfold Upload002.finishTransfer
    rw [hP, hA, hlen]
    cases hC : be.completeOk <;> simp [hC, hparts]
  rw [hfin]
  simp

/-- C7: resuming a transfer whose backend part listing already covers all
planned part indices 1 through totalParts issues zero part uploads and
proceeds directly to the finalize call: the whole backend trace of
resumeUpload is the ListParts call followed by the CompleteMultipartUpload
call carrying the listed parts. -/
theorem claim7_resume_full_set (be : Backend) (reg : Registry)
    (bucket key : String) (st : UploadState)
    (hlk : lookupReg reg (stateKey bucket key) = some st)
    (hmap : be.listParts.map (fun e => e.PartNumber)
      = List.range' 1 (totalPartsOf st.fileSize)) :
    resumeCalls (Upload002.resumeUpload be reg bucket key [])
      = [Call.listPartsCall, Call.completeCall be.listParts] ∧
    issuedParts (resumeCalls (Upload002.resumeUpload be reg bucket key []))
      = [] := by
  have h1 : resumeCalls (Upload002.resumeUpload be reg bucket key [])
      = [Call.listPartsCall, Call.completeCall be.listParts] := by
    rw [resumeUpload_some be reg bucket key [] st hlk]
    rw [resumeCalls]
    simp only [Upload002.multipartUpload]
    rw [if_pos (by simp)]
    rw [show (Option.orElse (some st.uploadId) (fun _ =>
      (lookupReg (insertReg reg (stateKey bucket key)
        { st with isPaused := false })
        (stateKey st.bucket st.key)).map (fun s => s.uploadId)))
      = some st.uploadId from rfl]
    exact runFrom002_full_set be _ _ st.filePath st.fileSize
      [Call.listPartsCall] _ rfl rfl rfl hmap
  exact ⟨h1, by rw [h1]; rfl⟩

/-- Witness for C7: a 6 MiB (2-part) transfer whose ListParts response
already reports parts 1 and 2. -/
theorem claim7_resume_full_set_witness :
    resumeCalls (Upload002.resumeUpload be12 reg6M "b" "k" [])
      = [Call.listPartsCall, Call.completeCall be12.listParts] ∧
    issuedParts (resumeCalls (Upload002.resumeUpload be12 reg6M "b" "k" []))
      = [] :=
  claim7_resume_full_set be12 reg6M "b" "k" st6M (by decide) (by decide)

/-- C4 counterexample: a 6 MiB uploadFile call (multipart path) on an
all-success backend completes, emits three events, and none of its events
has percentage 0 together with status uploading, so no start event is
emitted on the chunked path; and a 6 MiB uploadFile call paused at the
first batch boundary ends with no completed and no failed event, so a
terminal completed-or-failed event is not emitted either. -/
theorem claim4_counterexample :
    (Upload002.uploadFile beAll [] "b" "k" "f" FILE6M []).outcome = .done ∧
    (Upload002.uploadFile beAll [] "b" "k" "f" FILE6M []).events.length = 3 ∧
    (∀ ev ∈ (Upload002.uploadFile beAll [] "b" "k" "f" FILE6M []).events,
      ¬(ev.percentage = 0 ∧ ev.status = .uploading)) ∧
    (Upload002.uploadFile beAll [] "b" "k" "f" FILE6M
      [{ pause := true, abort := false }]).outcome = .pausedOut ∧
    (∀ ev ∈ (Upload002.uploadFile beAll [] "b" "k" "f" FILE6M
        [{ pause := true, abort := false }]).events,
      ev.status ≠ .completed ∧ ev.status ≠ .failed) := by
  have huf : ∀ sched, Upload002.uploadFile beAll [] "b" "k" "f" FILE6M sched
      = Upload002.multipartUpload beAll [] "b" "k" "f" FILE6M none sched := by
    intro sched
    unfold Upload002.uploadFile
    rw [if_neg (by decide)]
  refine ⟨by decide, by decide, ?_, by decide, by decide⟩
  intro ev hev hcontra
  rw [huf] at hev
  have hpos := multipart002_uploading_pos beAll [] "b" "k" "f" FILE6M none []
    (by decide) ev hev hcontra.2
  rw [hcontra.1] at hpos
  exact lt_irrefl 0 hpos

/-- C4 as amended: a simple upload emits the start event (0 percent,
uploading) first and a completed or failed event last; a chunked
(multipart) run emits a completed event last when it succeeds, the failed
event last when it fails, a paused event last when it returns paused, and
every uploading event it emits has strictly positive percentage, so the
chunked path emits no 0-percent start event. -/
theorem claim4_progress_events_amended (be : Backend) (reg : Registry)
    (bucket key fp : String) (fileSize : Nat) (uid : Option String)
    (sched : List FlagUpdate) (msg : String) (hfs : 0 < fileSize) :
    ((Upload002.simpleUpload be fp fileSize).events.head?
        = some (startEvent fp fileSize) ∧
      (∃ last, (Upload002.simpleUpload be fp fileSize).events.getLast?
          = some last ∧
        (last.status = .completed ∨ last.status = .failed))) ∧
    (((Upload002.multipartUpload be reg bucket key fp fileSize uid
          sched).outcome = .done →
        (Upload002.multipartUpload be reg bucket key fp fileSize uid
          sched).events.getLast? = some (completedEvent fp fileSize)) ∧
      ((Upload002.multipartUpload be reg bucket key fp fileSize uid
          sched).outcome = .failed msg →
        (Upload002.multipartUpload be reg bucket key fp fileSize uid
          sched).events.getLast? = some (failedEvent fp fileSize)) ∧
      ((Upload002.multipartUpload be reg bucket key fp fileSize uid
          sched).outcome = .pausedOut →
        ∃ ev, (Upload002.multipartUpload be reg bucket key fp fileSize uid
          sched).events.getLast? = some ev ∧ ev.status = .paused) ∧
      (∀ ev ∈ (Upload002.multipartUpload be reg bucket key fp fileSize uid
          sched).events, ev.status = .uploading → 0 < ev.percentage)) := by
  refine ⟨⟨?_, ?_⟩, ?_, ?_, ?_, ?_⟩
  · unfold Upload002.simpleUpload
    cases hp : be.putOk <;> simp [hp]
  · cases hp : be.putOk
    · have hev : (Upload002.simpleUpload be fp fileSize).events
          = [startEvent fp fileSize, failedEvent fp fileSize] := by
        unfold Upload002.simpleUpload
        rw [hp]
        rfl
      rw [hev]
      exact ⟨failedEvent fp fileSize, rfl, Or.inr rfl⟩
    · have hev : (Upload002.simpleUpload be fp fileSize).events
          = [startEvent fp fileSize,
             { fileName := fp, uploadedBytes := fileSize,
               totalBytes := fileSize, percentage := 100, currentPart := none,
               totalParts := none, status := .completed }] := by
        unfold Upload002.simpleUpload
        rw [hp]
        rfl
      rw [hev]
      exact ⟨_, rfl, Or.inl rfl⟩
  · exact multipart002_done_last be reg bucket key fp fileSize uid sched
  · exact multipart002_failed_last be reg bucket key fp fileSize uid sched msg
  · exact multipart002_paused_last be reg bucket key fp fileSize uid sched
  · exact multipart002_uploading_pos be reg bucket key fp fileSize uid sched hfs

/-- Witness for C4 as amended: concrete instances of the simple-path
start event and the chunked-path completed terminal event. -/
theorem claim4_progress_events_witness :
    (Upload002.simpleUpload beAll "f" FILE3M).events.head?
      = some (startEvent "f" FILE3M) ∧
    (Upload002.multipartUpload beAll [] "b" "k" "f" FILE6M none
      []).events.getLast? = some (completedEvent "f" FILE6M) := by
  have h1 := claim4_progress_events_amended beAll [] "b" "k" "f" FILE3M none
    [] "m" (by decide)
  have h2 := claim4_progress_events_amended beAll [] "b" "k" "f" FILE6M none
    [] "m" (by decide)
  exact ⟨h1.1.1, h2.2.1 (by decide)⟩

/-- C10: every upload that ends in failure emits, as its final progress
event, the failed event with uploadedBytes 0 and percentage 0, whatever
progress had been made: both the simple path and the chunked path end a
failed run with exactly that event. -/
theorem claim10_failed_event_zero (be : Backend) (reg : Registry)
    (bucket key fp : String) (fileSize : Nat) (uid : Option String)
    (sched : List FlagUpdate) (msg : String) :
    (failedEvent fp fileSize).uploadedBytes = 0 ∧
    (failedEvent fp fileSize).percentage = 0 ∧
    (failedEvent fp fileSize).status = .failed ∧
    ((Upload002.simpleUpload be fp fileSize).outcome = .failed msg →
      (Upload002.simpleUpload be fp fileSize).events.getLast?
        = some (failedEvent fp fileSize)) ∧
    ((Upload002.multipartUpload be reg bucket key fp fileSize uid
        sched).outcome = .failed msg →
      (Upload002.multipartUpload be reg bucket key fp fileSize uid
        sched).events.getLast? = some (failedEvent fp fileSize)) := by
  refine ⟨rfl, rfl, rfl, ?_, ?_⟩
  · intro h
    unfold Upload002.simpleUpload at h ⊢
    cases hp : be.putOk
    · rfl
    · rw [hp] at h
      simp at h
  · exact multipart002_failed_last be reg bucket key fp fileSize uid sched msg

/-- Witness for C10: a failing simple put and a failing initiate both end
with the zero-byte zero-percent failed event. -/
theorem claim10_failed_event_zero_witness :
    (Upload002.simpleUpload { beAll with putOk := false } "f"
      FILE3M).events.getLast? = some (failedEvent "f" FILE3M) ∧
    (Upload002.multipartUpload { beAll with initiateResult := none } []
      "b" "k" "f" FILE6M none []).events.getLast?
      = some (failedEvent "f" FILE6M) := by
  have h1 := claim10_failed_event_zero { beAll with putOk := false } []
    "b" "k" "f" FILE3M none [] "put failed"
  have h2 := claim10_failed_event_zero { beAll with initiateResult := none }
    [] "b" "k" "f" FILE6M none [] "Failed to initiate multipart upload"
  exact ⟨h1.2.2.2.1 (by decide), h2.2.2.2.2 (by decide)⟩
